import Mathlib

/-!
Verification of the reference-interpolation dispersion model of tad-dftd4
(file src/tad_dftd4/model.py) against its natural-language specification.

The Python code is shallowly embedded over the real numbers:
  - torch tensors indexed over atoms / reference states / frequency samples
    become Lean functions over natural-number indices;
  - float arithmetic becomes exact real arithmetic (torch.exp is Real.exp,
    torch.pow with a real exponent is Real.rpow);
  - torch.isnan is False on every real value (reals have no NaN); where a
    claim hinges on IEEE-only behaviour this is noted at the theorem;
  - the per-element reference tables loaded from params.npz and the data
    module (external static datasets, out of scope per the spec) are a
    parameter structure RefData; the refn table is hardcoded in the source
    and is reproduced verbatim;
  - Python exceptions are modelled with Except String.
-/

open scoped BigOperators

namespace TadDFTD4

/-- Per-element reference tables.  These arrays live in the external data
files (params.npz and the data module), which the spec treats as an opaque
immutable Reference Data Store; the embedding is parametric in them.
Indexing follows the source: a table indexed [Z][r] becomes a function of
the atomic number and the reference index, with W the padded width of the
reference dimension. -/
structure RefData where
  W : ℕ
  refc : ℕ → ℕ → ℤ
  refcn : ℕ → ℕ → ℝ
  refq : ℕ → ℕ → ℝ
  refsys : ℕ → ℕ → ℕ
  refsq : ℕ → ℕ → ℝ
  refascale : ℕ → ℕ → ℝ
  refalpha : ℕ → ℕ → ℝ
  refscount : ℕ → ℕ → ℝ
  secscale : ℕ → ℝ
  secalpha : ℕ → ℕ → ℝ
  zeff : ℕ → ℝ
  gam : ℕ → ℝ

/-- The refn table hardcoded at the top of model.py: number of valid
reference states per atomic number. -/
def refnList : List ℕ :=
  [0, 2, 1, 3, 4, 5, 7, 5, 4, 2, 1, 3, 4, 4, 5, 4, 3, 2, 1, 3, 4, 4,
   4, 4, 4, 3, 3, 4, 4, 2, 2, 3, 5, 4, 3, 2, 1, 3, 4, 3, 4, 4, 4, 3,
   3, 4, 3, 2, 2, 4, 5, 4, 3, 2, 1, 3, 4, 3, 1, 2, 2, 2, 2, 2, 2, 2,
   2, 2, 2, 2, 2, 2, 4, 4, 3, 3, 3, 5, 3, 2, 2, 4, 5, 4, 3, 2, 1]

/-- refn[Z] lookup. -/
def refn (Z : ℕ) : ℕ := refnList.getD Z 0

/-- THOPI = 3.0 / pi, with the source's truncated decimal constant. -/
noncomputable def THOPI : ℝ := 3.0 / 3.141592653589793238462643383279502884197

/-- Largest finite float64 value, torch.finfo(dtype).max in the source. -/
noncomputable def floatMax : ℝ := 1.7976931348623157e308

/-- torch.isnan on a real value: exact real arithmetic has no NaN, so this
is False; the IEEE-only situations where the source would see a NaN are
discussed at the theorems that depend on them. -/
def isnanR (_ : ℝ) : Prop := False

/-- Source function weight_cn(wf, cn, cnref): exp(-wf * dcn * dcn) with
dcn = cn - cnref. -/
noncomputable def weight_cn (wf cn cnref : ℝ) : ℝ :=
  Real.exp (-wf * (cn - cnref) * (cn - cnref))

/-- Source function zeta(a, c, qref, qmod): branch on qmod <= 0. -/
noncomputable def zeta (a c qref qmod : ℝ) : ℝ :=
  if qmod ≤ 0 then Real.exp a
  else Real.exp (a * (1 - Real.exp (c * (1 - qref / qmod))))

/-- The local zeta2 of weight_references: the same formula written as a
torch.where elementwise select instead of a control-flow branch. -/
noncomputable def zeta2 (scale gam qref qmod : ℝ) : ℝ :=
  if qmod ≤ 0 then Real.exp scale
  else Real.exp (scale * (1 - Real.exp (gam * (1 - qref / qmod))))

/-- tmp = torch.exp(-dcn * dcn) with dcn = cn - refcn[numbers], the
Gaussian base of the vectorized weighting path. -/
noncomputable def gaussBase (cna cnref : ℝ) : ℝ :=
  Real.exp (-((cna - cnref) * (cna - cnref)))

/-- One entry of the vectorized unnormalized weight tensor expw
(model.py lines 164-178): masked torch.where cascade on the multiplicity
code refc. -/
noncomputable def expwEntry (d : RefData) (wf : ℝ) (Z : ℕ) (cna : ℝ) (r : ℕ) : ℝ :=
  if 0 < d.refc Z r then
    if d.refc Z r = 3 then
      gaussBase cna (d.refcn Z r) ^ wf + gaussBase cna (d.refcn Z r) ^ (2 * wf)
        + gaussBase cna (d.refcn Z r) ^ (3 * wf)
    else if d.refc Z r = 1 then gaussBase cna (d.refcn Z r) ^ wf
    else gaussBase cna (d.refcn Z r)
  else 0

/-- norm = torch.sum(expw, dim=-1) for one atom: sum of the unnormalized
weights over the padded reference dimension. -/
noncomputable def normAtom (d : RefData) (wf : ℝ) (Z : ℕ) (cna : ℝ) : ℝ :=
  ∑ r ∈ Finset.range d.W, expwEntry d wf Z cna r

/-- exceptional = torch.isnan(norm) | (norm > torch.finfo(dtype).max),
the degenerate-normalization test of the source (model.py line 192). -/
noncomputable def exceptionalAtom (d : RefData) (wf : ℝ) (Z : ℕ) (cna : ℝ) : Prop :=
  isnanR (normAtom d wf Z cna) ∨ floatMax < normAtom d wf Z cna

/-- maxcn = torch.max(refcn[numbers], dim=-1): the largest reference CN of
the element over the padded reference dimension (torch.max needs that
dimension nonempty; for W > 0 this fold is that maximum). -/
def maxcnAtom (d : RefData) (Z : ℕ) : ℝ :=
  ((List.range d.W).map (d.refcn Z)).foldl max (d.refcn Z 0)

/-- gwk = expw / norm, one entry. -/
noncomputable def gwkEntry (d : RefData) (wf : ℝ) (Z : ℕ) (cna : ℝ) (r : ℕ) : ℝ :=
  expwEntry d wf Z cna r / normAtom d wf Z cna

open Classical in
/-- f = torch.where(exceptional, where(refcn == maxcn, 1, 0), gwk), one
entry (model.py lines 196-204). -/
noncomputable def fEntry (d : RefData) (wf : ℝ) (Z : ℕ) (cna : ℝ) (r : ℕ) : ℝ :=
  if exceptionalAtom d wf Z cna then
    (if d.refcn Z r = maxcnAtom d Z then 1 else 0)
  else gwkEntry d wf Z cna r

/-- One entry of the tensor z = zeta2(ga, gam[numbers] * gc,
refq[numbers] + zeff, q + zeff) bound at model.py line 223.  The loop
below rebinds the local variable z, so this tensor only survives to the
return statement when the loop body never runs (empty input). -/
noncomputable def zEntry (d : RefData) (ga gc : ℝ) (Z : ℕ) (qa : ℝ) (r : ℕ) : ℝ :=
  zeta2 ga (d.gam Z * gc) (d.refq Z r + d.zeff Z) (qa + d.zeff Z)

/-- The scalar zeta call of the loop path (model.py line 263).  There ga
is the Python float self.ga, so the qmod <= 0 branch of zeta evaluates
torch.exp(self.ga) on a float and raises TypeError at runtime (the
mathematical value of that branch, exp(ga), is never produced at this
call site); the other branch computes on tensors and succeeds with the
zeta formula. -/
noncomputable def zetaLoopCall (a c qref qmod : ℝ) : Except String ℝ :=
  if qmod ≤ 0 then .error "exp expected Tensor, not float"
  else .ok (Real.exp (a * (1 - Real.exp (c * (1 - qref / qmod)))))

/-- Effect of one atom's iteration of the loop (model.py lines 231-264)
on the local variable z.  The first inner loop accumulates norm starting
from the Python float 0.0; when no reference state contributes a term
(refn[Z] = 0, or every multiplicity code of the element is non-positive)
norm is still that float at line 244 and norm = 1.0 / norm raises
ZeroDivisionError (with at least one term, norm is a positive tensor and
the inversion succeeds).  The second inner loop then rebinds z once per
reference state in order; each iteration overwrites the previous binding,
so the surviving value is the last reference's (qmod = q[iat] + zeff does
not depend on iref, so this literal fold errors exactly when the source's
first zeta call does). -/
noncomputable def atomLoopZ (d : RefData) (ga gc : ℝ) (Z : ℕ) (qa : ℝ)
    (zprev : Option ℝ) : Except String (Option ℝ) :=
  if ((List.range (refn Z)).any fun iref => decide (0 < d.refc Z iref)) = true then
    (List.range (refn Z)).foldlM
      (fun _ iref => Except.map some
        (zetaLoopCall ga (d.gam Z * gc) (d.refq Z iref + d.zeff Z)
          (qa + d.zeff Z)))
      zprev
  else .error "float division by zero"

/-- The effect of the whole loop (model.py lines 231-264) on z, over the
atoms in order; its gwks and gwvec stores are dead (the returned value
does not read them), but its errors escape and its final z binding is
what line 270 returns. -/
noncomputable def loopZ (d : RefData) (ga gc : ℝ) (numbers : List ℕ)
    (qL : List ℝ) : Except String (Option ℝ) :=
  (List.range numbers.length).foldlM
    (fun zacc a => atomLoopZ d ga gc (numbers.getD a 0) (qL.getD a 0) zacc)
    none

/-- D4Model.weight_references.  A None coordination-number or charge
argument defaults to torch.zeros_like(numbers) (lines 145-148).  The
function computes the vectorized tensors f (lines 153-204) and z (line
223), then executes the loop path (lines 231-264), whose line 263
rebinds the local z to a scalar and whose error paths (ZeroDivisionError
at line 244, TypeError inside the scalar zeta) escape.  Line 270 returns
(f * z).mT, where z is the loop's last scalar zeta -- or still the
line-223 per-reference tensor if the loop body never ran (empty input). -/
noncomputable def weight_references (d : RefData) (ga gc wf : ℝ)
    (numbers : List ℕ) (cn q : Option (List ℝ)) :
    Except String (ℕ → ℕ → ℝ) :=
  let cnL := cn.getD (List.replicate numbers.length (0 : ℝ))
  let qL := q.getD (List.replicate numbers.length (0 : ℝ))
  match loopZ d ga gc numbers qL with
  | .error e => .error e
  | .ok zfin =>
    .ok (fun r a =>
      fEntry d wf (numbers.getD a 0) (cnL.getD a 0) r *
        (match zfin with
         | some zv => zv
         | none => zEntry d ga gc (numbers.getD a 0) (qL.getD a 0) r))

/-- One unnormalized weight of the literal loop path (model.py lines
246-251): expw = sum over igw in range(refc[izp][iref]) of
weight_cn((igw + 1) * wf, cn[iat], refcn[izp][iref]). -/
noncomputable def expwLoop (d : RefData) (wf : ℝ) (Z : ℕ) (cna : ℝ) (r : ℕ) : ℝ :=
  ∑ igw ∈ Finset.range (d.refc Z r).toNat,
    weight_cn (((igw : ℝ) + 1) * wf) cna (d.refcn Z r)

/-- aiw = secscale[isys] * secalpha[isys][k]
        * zeta(ga, gam[isys] * gc, zeff[isys], refsq[izp][iref])
(model.py lines 289-298). -/
noncomputable def aiwEntry (d : RefData) (ga gc : ℝ) (Z r k : ℕ) : ℝ :=
  let isys := d.refsys Z r
  d.secscale isys * d.secalpha isys k *
    zeta ga (d.gam isys * gc) (d.zeff isys) (d.refsq Z r)

/-- alpha[iat, 23*iref + k] = max(0, refascale[izp][iref] *
(refalpha[izp][23*iref + k] - refscount[izp][iref] * aiw))
(model.py lines 299-308). -/
noncomputable def alphaEntry (d : RefData) (ga gc : ℝ) (Z r k : ℕ) : ℝ :=
  max 0 (d.refascale Z r *
    (d.refalpha Z (23 * r + k) - d.refscount Z r * aiwEntry d ga gc Z r k))

/-- The tensor built by D4Model._set_refalpha_eeq: a zero matrix of shape
(atom count, 23 * mref) whose entries alpha[iat, 23*iref + k] for
iref < refn[izp] and k < 23 are filled with alphaEntry.  The flat column
index j decodes as iref = j / 23, k = j % 23. -/
noncomputable def set_refalpha_eeq (d : RefData) (ga gc : ℝ)
    (numbers : List ℕ) : ℕ → ℕ → ℝ :=
  fun iat j =>
    let Z := numbers.getD iat 0
    if j / 23 < refn Z then alphaEntry d ga gc Z (j / 23) (j % 23) else 0

/-- The hardcoded 23-entry Casimir-Polder weight table of trapzd. -/
noncomputable def trapzdWeights : List ℝ :=
  [0.0499990000000000, 0.0999990000000000, 0.1500000000000000,
   0.2000000000000000, 0.2000000000000000, 0.2000000000000000,
   0.2000000000000000, 0.2000000000000000, 0.2000000000000000,
   0.2000000000000000, 0.2000000000000000, 0.3000000000000000,
   0.4000000000000000, 0.4000000000000000, 0.4000000000000000,
   0.4000000000000000, 0.7000000000000000, 1.0000000000000000,
   1.5000000000000000, 2.0000000000000000, 3.5000000000000000,
   5.0000000000000000, 2.5000000000000000]

/-- A runtime torch value: a 0-dim tensor (one scalar) or a 1-dim tensor.
get_atomic_c6 passes alpha[iat][23 * iref], a 0-dim tensor, to trapzd,
whose per-sample indexing is only defined on 1-dim tensors; this type
records that distinction so the resulting runtime error is representable. -/
inductive PyVal where
  | scalar : ℝ → PyVal
  | vec : (ℕ → ℝ) → PyVal

/-- Integer indexing of a torch value: valid on a 1-dim tensor, raises on
a 0-dim tensor (the PyTorch IndexError). -/
def PyVal.index (v : PyVal) (w : ℕ) : Except String ℝ :=
  match v with
  | .scalar _ => .error "invalid index of a 0-dim tensor"
  | .vec f => .ok (f w)

/-- Source function trapzd: c6 = sum over w in range(23) of
weights[w] * polarizability_a[w] * polarizability_b[w]; returns 0.5 * c6.
Each argument is indexed 23 times, so a 0-dim argument raises. -/
noncomputable def trapzd (a b : PyVal) : Except String ℝ := do
  let terms ← (List.range 23).mapM (fun w => do
    let x ← a.index w
    let y ← b.index w
    pure (trapzdWeights.getD w 0 * x * y))
  pure (0.5 * terms.sum)

/-- The inner dc6 accumulation of get_atomic_c6 for one atom pair
(model.py lines 326-332): dc6 = sum over iref in range(refn[izp]), jref in
range(refn[jzp]) of gwvec[iref, iat] * gwvec[jref, jat] * THOPI *
trapzd(alpha[iat][23*iref], alpha[jat][23*jref]).  The source passes the
single entries alpha[iat][23*iref] (0-dim tensors) to trapzd. -/
noncomputable def dc6Pair (d : RefData) (ga gc : ℝ) (numbers : List ℕ)
    (gwvec : ℕ → ℕ → ℝ) (iat jat : ℕ) : Except String ℝ :=
  let izp := numbers.getD iat 0
  let jzp := numbers.getD jat 0
  let alpha := set_refalpha_eeq d ga gc numbers
  (List.range (refn izp)).foldlM (fun acc iref =>
    (List.range (refn jzp)).foldlM (fun acc2 jref => do
      let refc6 ← trapzd (.scalar (alpha iat (23 * iref)))
                         (.scalar (alpha jat (23 * jref)))
      pure (acc2 + gwvec iref iat * gwvec jref jat * (THOPI * refc6))) acc) 0

/-- The two assignments c6[iat, jat] = dc6; c6[jat, iat] = dc6 of one loop
iteration (model.py lines 334-335). -/
noncomputable def c6Update (dc6 : ℝ) (iat jat : ℕ) (m : ℕ → ℕ → ℝ) : ℕ → ℕ → ℝ :=
  fun i j => if (i = iat ∧ j = jat) ∨ (i = jat ∧ j = iat) then dc6 else m i j

/-- The double loop of get_atomic_c6 over the remaining (iat, jat) pairs:
each iteration computes dc6 for the pair (propagating the trapzd error if
it raises) and performs the two symmetric assignments. -/
noncomputable def c6Fold (d : RefData) (ga gc : ℝ) (numbers : List ℕ)
    (gwvec : ℕ → ℕ → ℝ) : List (ℕ × ℕ) → (ℕ → ℕ → ℝ) →
    Except String (ℕ → ℕ → ℝ)
  | [], m => .ok m
  | p :: L, m =>
    match dc6Pair d ga gc numbers gwvec p.1 p.2 with
    | .error e => .error e
    | .ok dc6 => c6Fold d ga gc numbers gwvec L (c6Update dc6 p.1 p.2 m)

/-- D4Model.get_atomic_c6: starts from torch.zeros(n, n) and runs the
double loop over all (iat, jat) pairs in row-major order. -/
noncomputable def get_atomic_c6 (d : RefData) (ga gc : ℝ) (numbers : List ℕ)
    (gwvec : ℕ → ℕ → ℝ) : Except String (ℕ → ℕ → ℝ) :=
  c6Fold d ga gc numbers gwvec
    ((List.range numbers.length).product (List.range numbers.length))
    (fun _ _ => 0)

/-! Helper lemmas. -/

/-- Real powers of an exponential: exp(a) ^ y = exp(a * y). -/
lemma exp_rpow_eq (a y : ℝ) : Real.exp a ^ y = Real.exp (a * y) := by
  rw [Real.rpow_def_of_pos (Real.exp_pos a), Real.log_exp]

lemma gaussBase_pos (cna cnref : ℝ) : 0 < gaussBase cna cnref :=
  Real.exp_pos _

lemma expwEntry_nonneg (d : RefData) (wf : ℝ) (Z : ℕ) (cna : ℝ) (r : ℕ) :
    0 ≤ expwEntry d wf Z cna r := by
  unfold expwEntry gaussBase
  split_ifs <;> positivity

lemma expwEntry_pos (d : RefData) (wf : ℝ) (Z : ℕ) (cna : ℝ) (r : ℕ)
    (h : 0 < d.refc Z r) : 0 < expwEntry d wf Z cna r := by
  unfold expwEntry gaussBase
  rw [if_pos h]
  split_ifs <;> positivity

lemma normAtom_pos (d : RefData) (wf : ℝ) (Z : ℕ) (cna : ℝ)
    (h : ∃ r, r < d.W ∧ 0 < d.refc Z r) : 0 < normAtom d wf Z cna := by
  obtain ⟨r, hr, hc⟩ := h
  refine Finset.sum_pos' (fun i _ => expwEntry_nonneg d wf Z cna i) ?_
  exact ⟨r, Finset.mem_range.mpr hr, expwEntry_pos d wf Z cna r hc⟩

/-! C9: the branches of the charge-scaling zeta function. -/

/-- C9: for every (ga, gam, qref', qmod'), if qmod' <= 0 the zeta function
returns exactly exp(ga), independent of qref'; otherwise it returns
exp(ga * (1 - exp(gam * (1 - qref'/qmod')))).  The branchless zeta2 used
inside weight_references computes the same value. -/
theorem c9_zeta_branches (a c qref qref' qmod : ℝ) :
    (qmod ≤ 0 → zeta a c qref qmod = Real.exp a ∧
      zeta a c qref qmod = zeta a c qref' qmod) ∧
    (0 < qmod → zeta a c qref qmod =
      Real.exp (a * (1 - Real.exp (c * (1 - qref / qmod))))) ∧
    zeta2 a c qref qmod = zeta a c qref qmod := by
  refine ⟨fun h => ?_, fun h => ?_, rfl⟩
  · simp [zeta, if_pos h]
  · simp [zeta, if_neg (not_le.mpr h)]

/-- Witness for C9 at concrete inputs qmod' = -1 and qmod' = 1. -/
theorem c9_zeta_branches_witness :
    zeta 3 2 (1/2) (-1) = Real.exp 3 ∧
    zeta 3 2 (1/2) 1 = Real.exp (3 * (1 - Real.exp (2 * (1 - (1/2) / 1)))) := by
  constructor
  · exact ((c9_zeta_branches 3 2 (1/2) 0 (-1)).1 (by norm_num)).1
  · exact (c9_zeta_branches 3 2 (1/2) 0 1).2.1 (by norm_num)

/-! C10: defaulted optional arguments of weight_references. -/

/-- C10 amended: omitting the optional coordination-number argument cn
or the optional partial-charge argument q of weight_references is the
same computation -- the same returned tensor or the same raised error --
as passing an explicit all-zeros vector of the length of the
atomic-numbers input.  The defaulted call does not always succeed (see
the counterexample). -/
theorem c10_amended_default_args (d : RefData) (ga gc wf : ℝ)
    (numbers : List ℕ) (cnL qL : List ℝ) :
    (weight_references d ga gc wf numbers none (some qL) =
      weight_references d ga gc wf numbers
        (some (List.replicate numbers.length 0)) (some qL)) ∧
    (weight_references d ga gc wf numbers (some cnL) none =
      weight_references d ga gc wf numbers (some cnL)
        (some (List.replicate numbers.length 0))) ∧
    (weight_references d ga gc wf numbers none none =
      weight_references d ga gc wf numbers
        (some (List.replicate numbers.length 0))
        (some (List.replicate numbers.length 0))) :=
  ⟨rfl, rfl, rfl⟩

/-- Real powers of the Gaussian base recover the loop path's weight_cn:
gaussBase(cn, cnref) ^ y = weight_cn(y, cn, cnref). -/
lemma gaussBase_rpow (cna cnref y : ℝ) :
    gaussBase cna cnref ^ y = weight_cn y cna cnref := by
  unfold gaussBase weight_cn
  rw [exp_rpow_eq]
  congr 1
  ring

/-! Synthetic single-element reference tables, in the spirit of the spec's
testing-with-synthetic-small-tables design note.  The external tables are
out of scope, so claims universally quantified over table contents are
settled on such instances. -/

/-- One element (atomic number 1) with a single reference state of
multiplicity code 2 at reference CN 0. -/
def dsCode2 : RefData where
  W := 1
  refc := fun Z r => if Z = 1 ∧ r = 0 then 2 else 0
  refcn := fun _ _ => 0
  refq := fun _ _ => 0
  refsys := fun _ _ => 0
  refsq := fun _ _ => 0
  refascale := fun _ _ => 0
  refalpha := fun _ _ => 0
  refscount := fun _ _ => 0
  secscale := fun _ => 0
  secalpha := fun _ _ => 0
  zeff := fun _ => 0
  gam := fun _ => 0

/-- One element (atomic number 1) with two reference states of
multiplicity code 1 at reference CN 0. -/
def dsOnes : RefData where
  W := 2
  refc := fun Z r => if Z = 1 ∧ r < 2 then 1 else 0
  refcn := fun _ _ => 0
  refq := fun _ _ => 0
  refsys := fun _ _ => 0
  refsq := fun _ _ => 0
  refascale := fun _ _ => 0
  refalpha := fun _ _ => 0
  refscount := fun _ _ => 0
  secscale := fun _ => 0
  secalpha := fun _ _ => 0
  zeff := fun _ => 0
  gam := fun _ => 0

/-! C1: the Gaussian weighting formulas of the vectorized path. -/

/-- C1 counterexample: for multiplicity code c = 2 the vectorized path
computes the plain Gaussian base tmp (the where-cascade's final else
branch, model.py line 174), not base ^ wf as the claim states.  At
wf = 6, cn = 1, refcn = 0 the two differ. -/
theorem c1_counterexample_code2_weight :
    expwEntry dsCode2 6 1 1 0 = gaussBase 1 (dsCode2.refcn 1 0) ∧
    expwEntry dsCode2 6 1 1 0 ≠ gaussBase 1 (dsCode2.refcn 1 0) ^ (6 : ℝ) := by
  have hc : dsCode2.refc 1 0 = 2 := rfl
  have hcn : dsCode2.refcn 1 0 = 0 := rfl
  have hv : expwEntry dsCode2 6 1 1 0 = gaussBase 1 0 := by
    simp [expwEntry, hc, hcn]
  have hbase : gaussBase 1 (0 : ℝ) = Real.exp (-1) := by
    unfold gaussBase
    norm_num
  refine ⟨by rw [hv, hcn], ?_⟩
  rw [hv, hcn, hbase, exp_rpow_eq]
  rw [Ne, Real.exp_eq_exp]
  norm_num

/-- C1 amended: for a valid reference state the unnormalized vectorized
weight is base ^ wf for code 1, the plain base (not base ^ wf) for code 2,
and base ^ wf + base ^ (2 wf) + base ^ (3 wf) for code 3; entries whose
multiplicity code is not positive (the padding mask) are forced to 0; and
away from the degenerate branch the final weight is the unnormalized
weight divided by the atom's sum over the padded reference dimension. -/
theorem c1_amended_weight_formulas (d : RefData) (wf : ℝ) (Z : ℕ)
    (cna : ℝ) (r : ℕ) :
    (d.refc Z r = 1 → expwEntry d wf Z cna r = gaussBase cna (d.refcn Z r) ^ wf) ∧
    (d.refc Z r = 2 → expwEntry d wf Z cna r = gaussBase cna (d.refcn Z r)) ∧
    (d.refc Z r = 3 → expwEntry d wf Z cna r =
      gaussBase cna (d.refcn Z r) ^ wf + gaussBase cna (d.refcn Z r) ^ (2 * wf)
        + gaussBase cna (d.refcn Z r) ^ (3 * wf)) ∧
    (d.refc Z r ≤ 0 → expwEntry d wf Z cna r = 0) ∧
    (¬ exceptionalAtom d wf Z cna → fEntry d wf Z cna r =
      expwEntry d wf Z cna r / normAtom d wf Z cna) := by
  refine ⟨fun h => ?_, fun h => ?_, fun h => ?_, fun h => ?_, fun h => ?_⟩
  · simp [expwEntry, h]
  · simp [expwEntry, h]
  · simp [expwEntry, h]
  · simp [expwEntry, not_lt.mpr h]
  · rw [fEntry, if_neg h, gwkEntry]

/-- Witness for C1's amended statement at the synthetic code-2 table. -/
theorem c1_amended_weight_formulas_witness :
    dsCode2.refc 1 0 = 2 ∧
    expwEntry dsCode2 6 1 1 0 = gaussBase 1 (dsCode2.refcn 1 0) :=
  ⟨rfl, (c1_amended_weight_formulas dsCode2 6 1 1 0).2.1 rfl⟩

/-! C6: vectorized specialization versus the general loop formula. -/

/-- C6 counterexample: at multiplicity code 2 the vectorized path gives
the plain base exp(-1) while the general loop formula gives
exp(-6) + exp(-12) (wf = 6, cn = 1, refcn = 0); the two are different
real numbers. -/
theorem c6_counterexample_code2_paths :
    expwEntry dsCode2 6 1 1 0 ≠ expwLoop dsCode2 6 1 1 0 := by
  have hv : expwEntry dsCode2 6 1 1 0 = Real.exp (-1) := by
    have hc : dsCode2.refc 1 0 = 2 := rfl
    have hcn : dsCode2.refcn 1 0 = 0 := rfl
    simp [expwEntry, hc, hcn, gaussBase]
  have hl : expwLoop dsCode2 6 1 1 0 = Real.exp (-6) + Real.exp (-12) := by
    have hc : dsCode2.refc 1 0 = 2 := rfl
    rw [expwLoop]
    rw [hc]
    rw [show ((2 : ℤ).toNat) = 2 from rfl]
    rw [Finset.sum_range_succ, Finset.sum_range_one]
    unfold weight_cn
    have hcn : dsCode2.refcn 1 0 = 0 := rfl
    rw [hcn]
    norm_num
  rw [hv, hl]
  have h6 : Real.exp (-6) ≤ Real.exp (-1) * (1 / 6) := by
    rw [show (-6 : ℝ) = -1 + -5 by norm_num, Real.exp_add]
    have h5 : (6 : ℝ) ≤ Real.exp 5 := by
      nlinarith [Real.add_one_le_exp (5 : ℝ)]
    have : Real.exp (-5) ≤ 1 / 6 := by
      rw [Real.exp_neg]
      rw [one_div]
      exact inv_anti₀ (by norm_num) h5
    nlinarith [Real.exp_pos (-1 : ℝ)]
  have h12 : Real.exp (-12) ≤ Real.exp (-1) * (1 / 6) := by
    rw [show (-12 : ℝ) = -1 + -11 by norm_num, Real.exp_add]
    have h11 : (6 : ℝ) ≤ Real.exp 11 := by
      nlinarith [Real.add_one_le_exp (11 : ℝ)]
    have : Real.exp (-11) ≤ 1 / 6 := by
      rw [Real.exp_neg]
      rw [one_div]
      exact inv_anti₀ (by norm_num) h11
    nlinarith [Real.exp_pos (-1 : ℝ)]
  have hpos := Real.exp_pos (-1 : ℝ)
  intro heq
  linarith

/-- C6 amended: the vectorized path agrees with the general loop-driven
formula (sum of base ^ ((igw + 1) wf) for igw below the multiplicity
code) exactly for codes 1 and 3 and for non-positive (masked) codes; for
code 2 the two paths differ. -/
theorem c6_amended_paths_agree (d : RefData) (wf : ℝ) (Z : ℕ) (cna : ℝ)
    (r : ℕ) (h : d.refc Z r = 1 ∨ d.refc Z r = 3 ∨ d.refc Z r ≤ 0) :
    expwEntry d wf Z cna r = expwLoop d wf Z cna r := by
  rcases h with h | h | h
  · rw [expwLoop, h]
    simp only [expwEntry, h]
    norm_num [Finset.sum_range_one, gaussBase_rpow]
  · rw [expwLoop, h, show ((3 : ℤ).toNat) = 3 from rfl, Finset.sum_range_succ,
      Finset.sum_range_succ, Finset.sum_range_one]
    simp only [expwEntry, h]
    norm_num [gaussBase_rpow]
  · rw [expwLoop, Int.toNat_of_nonpos h]
    simp [expwEntry, not_lt.mpr h]

/-- Witness for C6's amended statement at the synthetic code-1 table. -/
theorem c6_amended_paths_agree_witness :
    dsOnes.refc 1 0 = 1 ∧
    expwEntry dsOnes 6 1 1 0 = expwLoop dsOnes 6 1 1 0 :=
  ⟨rfl, c6_amended_paths_agree dsOnes 6 1 1 0 (Or.inl rfl)⟩

/-- C10 counterexample: with both optional arguments omitted (so
defaulted to zeros), the input numbers = [0] -- the batch-padding
atomic number, refn[0] = 0 -- leaves the loop's norm the Python float
0.0, and line 244 (norm = 1.0 / norm) raises ZeroDivisionError: the
defaulted call does not succeed. -/
theorem c10_counterexample_padding_raises :
    weight_references dsOnes 3 2 6 [0] none none =
      .error "float division by zero" :=
  rfl

/-! C3: the reference-sum of the returned weight tensor. -/

/-- One element (atomic number 1, refn[1] = 2) with two reference states
of multiplicity code 1 at reference CN 0 and reference charge 0, with
effective nuclear charge 1 and hardness 1: a table on which
weight_references returns normally for q = 1. -/
def dsCharged : RefData where
  W := 2
  refc := fun Z r => if Z = 1 ∧ r < 2 then 1 else 0
  refcn := fun _ _ => 0
  refq := fun _ _ => 0
  refsys := fun _ _ => 0
  refsq := fun _ _ => 0
  refascale := fun _ _ => 0
  refalpha := fun _ _ => 0
  refscount := fun _ _ => 0
  secscale := fun _ => 0
  secalpha := fun _ _ => 0
  zeff := fun _ => 1
  gam := fun _ => 1

lemma dsCharged_expw (r : ℕ) (hr : r < 2) : expwEntry dsCharged 6 1 0 r = 1 := by
  have hc : dsCharged.refc 1 r = 1 := by simp [dsCharged, hr]
  have hcn : dsCharged.refcn 1 r = 0 := rfl
  simp [expwEntry, hc, hcn, gaussBase, Real.one_rpow]

lemma dsCharged_norm : normAtom dsCharged 6 1 0 = 2 := by
  rw [normAtom, show dsCharged.W = 2 from rfl, Finset.sum_range_succ,
    Finset.sum_range_one, dsCharged_expw 0 (by norm_num),
    dsCharged_expw 1 (by norm_num)]
  norm_num

lemma dsCharged_not_exceptional : ¬ exceptionalAtom dsCharged 6 1 0 := by
  rw [exceptionalAtom, dsCharged_norm]
  rintro (h | h)
  · exact h
  · norm_num [floatMax] at h

lemma dsCharged_f (r : ℕ) (hr : r < 2) : fEntry dsCharged 6 1 0 r = 1 / 2 := by
  rw [fEntry, if_neg dsCharged_not_exceptional, gwkEntry, dsCharged_norm,
    dsCharged_expw r hr]

lemma dsCharged_atomZ :
    atomLoopZ dsCharged 3 2 1 1 none =
      .ok (some (Real.exp (3 * (1 - Real.exp 1)))) := by
  have hcall : ∀ iref : ℕ,
      zetaLoopCall 3 (dsCharged.gam 1 * 2)
        (dsCharged.refq 1 iref + dsCharged.zeff 1)
        ((1 : ℝ) + dsCharged.zeff 1) =
        .ok (Real.exp (3 * (1 - Real.exp 1))) := by
    intro iref
    rw [zetaLoopCall,
      if_neg (show ¬((1 : ℝ) + dsCharged.zeff 1 ≤ 0) by norm_num [dsCharged])]
    norm_num [dsCharged]
  rw [atomLoopZ,
    if_pos (show ((List.range (refn 1)).any
      fun iref => decide (0 < dsCharged.refc 1 iref)) = true from rfl)]
  rw [show List.range (refn 1) = [0, 1] from rfl]
  simp only [List.foldlM_cons, List.foldlM_nil, hcall]
  rfl

lemma dsCharged_loopZ :
    loopZ dsCharged 3 2 [1] [1] =
      .ok (some (Real.exp (3 * (1 - Real.exp 1)))) := by
  rw [loopZ, show List.range ([1] : List ℕ).length = [0] from rfl]
  simp only [List.foldlM_cons, List.foldlM_nil, List.getD_cons_zero,
    dsCharged_atomZ]
  rfl

/-- The value weight_references returns at the C3 counterexample input:
the loop survives (every effective charge is 2 > 0) and rebinds z to the
scalar exp(3 (1 - e)); the returned tensor is f times that stale scalar. -/
lemma dsCharged_weight_ok :
    weight_references dsCharged 3 2 6 [1] (some [0]) (some [1]) =
      .ok (fun r a =>
        fEntry dsCharged 6 (([1] : List ℕ).getD a 0) (([0] : List ℝ).getD a 0) r *
          Real.exp (3 * (1 - Real.exp 1))) := by
  show (match loopZ dsCharged 3 2 [1] [1] with
    | .error e => Except.error e
    | .ok zfin =>
      Except.ok (fun r a =>
        fEntry dsCharged 6 (([1] : List ℕ).getD a 0) (([0] : List ℝ).getD a 0) r *
          (match zfin with
           | some zv => zv
           | none => zEntry dsCharged 3 2 (([1] : List ℕ).getD a 0)
               (([1] : List ℝ).getD a 0) r))) = _
  rw [dsCharged_loopZ]

/-- C3 counterexample: the loop at model.py lines 231-264 rebinds z, so
line 270 returns f scaled by one stale scalar zeta; on the synthetic
code-1 table with cn = 0 and q = 1 the call returns and the returned
column sums to exp(3 (1 - e)), which is not 1 (e > 1). -/
theorem c3_counterexample_sum_not_one :
    ∃ M, weight_references dsCharged 3 2 6 [1] (some [0]) (some [1]) =
        .ok M ∧
      ∑ r ∈ Finset.range dsCharged.W, M r 0 ≠ 1 := by
  refine ⟨_, dsCharged_weight_ok, ?_⟩
  have hM : ∀ r : ℕ, r < 2 →
      fEntry dsCharged 6 (([1] : List ℕ).getD 0 0) (([0] : List ℝ).getD 0 0) r *
          Real.exp (3 * (1 - Real.exp 1)) =
        1 / 2 * Real.exp (3 * (1 - Real.exp 1)) := by
    intro r hr
    show fEntry dsCharged 6 1 0 r * Real.exp (3 * (1 - Real.exp 1)) = _
    rw [dsCharged_f r hr]
  rw [show dsCharged.W = 2 from rfl, Finset.sum_range_succ,
    Finset.sum_range_one, hM 0 (by norm_num), hM 1 (by norm_num)]
  intro h
  have hone : Real.exp (3 * (1 - Real.exp 1)) = Real.exp 0 := by
    rw [Real.exp_zero]
    linarith
  have h0 : 3 * (1 - Real.exp 1) = 0 := Real.exp_eq_exp.mp hone
  nlinarith [Real.add_one_le_exp (1 : ℝ)]

/-- Every entry of a tensor weight_references actually returns is the
vectorized weight factor f times some scalar (the loop's stale z, or the
line-223 tensor entry only on an empty input). -/
lemma weight_references_ok_entry (d : RefData) (ga gc wf : ℝ)
    (numbers : List ℕ) (cnL qL : List ℝ) (M : ℕ → ℕ → ℝ)
    (hok : weight_references d ga gc wf numbers (some cnL) (some qL) = .ok M)
    (r a : ℕ) :
    ∃ zf : ℝ, M r a =
      fEntry d wf (numbers.getD a 0) (cnL.getD a 0) r * zf := by
  simp only [weight_references, Option.getD_some] at hok
  cases hz : loopZ d ga gc numbers qL with
  | error e =>
    rw [hz] at hok
    exact Except.noConfusion hok
  | ok zfin =>
    rw [hz] at hok
    have hfun := Except.ok.inj hok
    cases zfin with
    | some zv => exact ⟨zv, by rw [← hfun]⟩
    | none =>
      exact ⟨zEntry d ga gc (numbers.getD a 0) (qL.getD a 0) r, by rw [← hfun]⟩

/-- C3 amended: away from the degenerate branch and given at least one
valid reference state, the internal normalized Gaussian weight factor f
sums to exactly 1 over the padded reference dimension; and whenever
weight_references returns a tensor, that tensor's entries at masked
(padding) reference states are exactly 0.  The returned tensor is f
scaled by the loop's single stale scalar zeta (line 263 rebinds z), so
its own reference-sum is that scalar, not 1 (see the counterexample). -/
theorem c3_amended_normalization (d : RefData) (ga gc wf : ℝ)
    (numbers : List ℕ) (cnL qL : List ℝ) (a : ℕ) (M : ℕ → ℕ → ℝ)
    (hok : weight_references d ga gc wf numbers (some cnL) (some qL) = .ok M)
    (hvalid : ∃ r, r < d.W ∧ 0 < d.refc (numbers.getD a 0) r)
    (hov : normAtom d wf (numbers.getD a 0) (cnL.getD a 0) ≤ floatMax) :
    ∑ r ∈ Finset.range d.W,
      fEntry d wf (numbers.getD a 0) (cnL.getD a 0) r = 1 ∧
    ∀ r, d.refc (numbers.getD a 0) r ≤ 0 → M r a = 0 := by
  have hnexc : ¬ exceptionalAtom d wf (numbers.getD a 0) (cnL.getD a 0) := by
    rintro (h | h)
    · exact h
    · exact absurd h (not_lt.mpr hov)
  have hnorm : normAtom d wf (numbers.getD a 0) (cnL.getD a 0) ≠ 0 :=
    ne_of_gt (normAtom_pos d wf (numbers.getD a 0) (cnL.getD a 0) hvalid)
  constructor
  · have hf : ∀ r ∈ Finset.range d.W,
        fEntry d wf (numbers.getD a 0) (cnL.getD a 0) r =
          expwEntry d wf (numbers.getD a 0) (cnL.getD a 0) r /
            normAtom d wf (numbers.getD a 0) (cnL.getD a 0) := by
      intro r _
      rw [fEntry, if_neg hnexc, gwkEntry]
    rw [Finset.sum_congr rfl hf, ← Finset.sum_div]
    exact div_self hnorm
  · intro r hr
    obtain ⟨zf, hMra⟩ :=
      weight_references_ok_entry d ga gc wf numbers cnL qL M hok r a
    rw [hMra, fEntry, if_neg hnexc, gwkEntry]
    rw [show expwEntry d wf (numbers.getD a 0) (cnL.getD a 0) r = 0 by
      unfold expwEntry
      rw [if_neg (not_lt.mpr hr)]]
    rw [zero_div, zero_mul]

/-- Witness for C3's amended statement at the synthetic charged table. -/
theorem c3_amended_normalization_witness :
    normAtom dsCharged 6 1 0 ≤ floatMax ∧
    ∑ r ∈ Finset.range dsCharged.W, fEntry dsCharged 6 1 0 r = 1 := by
  have hvalid : ∃ r, r < dsCharged.W ∧
      0 < dsCharged.refc (([1] : List ℕ).getD 0 0) r :=
    ⟨0, by decide, by decide⟩
  have hov : normAtom dsCharged 6 (([1] : List ℕ).getD 0 0)
      (([0] : List ℝ).getD 0 0) ≤ floatMax := by
    show normAtom dsCharged 6 1 0 ≤ floatMax
    rw [dsCharged_norm]
    norm_num [floatMax]
  refine ⟨by rw [dsCharged_norm]; norm_num [floatMax], ?_⟩
  exact (c3_amended_normalization dsCharged 3 2 6 [1] [0] [1] 0 _
    dsCharged_weight_ok hvalid hov).1

/-! C4: the degenerate-normalization fallback. -/

/-- One element (atomic number 1) whose single reference state has
multiplicity code 0, realizing a zero unnormalized-weight sum (the state
float64 reaches by underflow when the CN is far from every reference CN). -/
noncomputable def dsNoValid : RefData where
  W := 1
  refc := fun _ _ => 0
  refcn := fun Z _ => if Z = 1 then 5 / 2 else 0
  refq := fun _ _ => 0
  refsys := fun _ _ => 0
  refsq := fun _ _ => 0
  refascale := fun _ _ => 0
  refalpha := fun _ _ => 0
  refscount := fun _ _ => 0
  secscale := fun _ => 0
  secalpha := fun _ _ => 0
  zeff := fun _ => 0
  gam := fun _ => 0

/-- C4 code bug: when the unnormalized-weight sum is exactly zero, the
source's exceptional test isnan(norm) | (norm > finfo.max) is False, so
the indicator fallback is skipped and the weight comes from the division
gwk = expw / norm instead: 0 / 0, which is NaN in IEEE float64 (and 0 in
this exact-real embedding) -- in either case not the claimed 1.0 at the
reference state carrying the maximal reference CN.  The claim (and the
source's own comment about preventing division by 0) require the
indicator fallback to trigger here. -/
theorem c4_code_bug_zero_norm :
    normAtom dsNoValid 6 1 0 = 0 ∧
    ¬ exceptionalAtom dsNoValid 6 1 0 ∧
    dsNoValid.refcn 1 0 = maxcnAtom dsNoValid 1 ∧
    fEntry dsNoValid 6 1 0 0 = 0 := by
  have hnorm : normAtom dsNoValid 6 1 0 = 0 := by
    rw [normAtom, show dsNoValid.W = 1 from rfl, Finset.sum_range_one]
    simp [expwEntry, dsNoValid]
  have hnexc : ¬ exceptionalAtom dsNoValid 6 1 0 := by
    rw [exceptionalAtom, hnorm]
    rintro (h | h)
    · exact h
    · norm_num [floatMax] at h
  refine ⟨hnorm, hnexc, ?_, ?_⟩
  · rw [maxcnAtom, show dsNoValid.W = 1 from rfl]
    simp [dsNoValid, show List.range 1 = [0] from rfl]
  · rw [fEntry, if_neg hnexc, gwkEntry, hnorm]
    simp [expwEntry, dsNoValid]

/-! C8: the reference polarizability expansion. -/

lemma c6Update_symm (v : ℝ) (a b : ℕ) (m : ℕ → ℕ → ℝ)
    (hm : ∀ i j, m i j = m j i) (i j : ℕ) :
    c6Update v a b m i j = c6Update v a b m j i := by
  unfold c6Update
  by_cases h : (i = a ∧ j = b) ∨ (i = b ∧ j = a)
  · rw [if_pos h, if_pos (by tauto)]
  · rw [if_neg h, if_neg (by tauto), hm]

lemma c6Fold_ok_symm (d : RefData) (ga gc : ℝ) (numbers : List ℕ)
    (gw : ℕ → ℕ → ℝ) :
    ∀ (L : List (ℕ × ℕ)) (m : ℕ → ℕ → ℝ), (∀ i j, m i j = m j i) →
    ∀ res, c6Fold d ga gc numbers gw L m = .ok res →
    ∀ i j, res i j = res j i := by
  intro L
  induction L with
  | nil =>
    intro m hm res h i j
    simp only [c6Fold] at h
    obtain rfl : m = res := by injection h
    exact hm i j
  | cons p L ih =>
    intro m hm res h i j
    cases hd : dc6Pair d ga gc numbers gw p.1 p.2 with
    | error e =>
      simp only [c6Fold, hd] at h
      exact Except.noConfusion h
    | ok v =>
      simp only [c6Fold, hd] at h
      exact ih (c6Update v p.1 p.2 m) (c6Update_symm v p.1 p.2 m hm) res h i j

lemma c6Fold_ok_mem (d : RefData) (ga gc : ℝ) (numbers : List ℕ)
    (gw : ℕ → ℕ → ℝ) (p : ℕ × ℕ) :
    ∀ (L : List (ℕ × ℕ)) (m res : ℕ → ℕ → ℝ),
    c6Fold d ga gc numbers gw L m = .ok res → p ∈ L →
    ∃ v, dc6Pair d ga gc numbers gw p.1 p.2 = .ok v := by
  intro L
  induction L with
  | nil => intro m res _ hp; cases hp
  | cons q L ih =>
    intro m res h hp
    cases hd : dc6Pair d ga gc numbers gw q.1 q.2 with
    | error e =>
      simp only [c6Fold, hd] at h
      exact Except.noConfusion h
    | ok v =>
      rcases List.mem_cons.mp hp with rfl | hp'
      · exact ⟨v, hd⟩
      · simp only [c6Fold, hd] at h
        exact ih _ res h hp'

lemma c6Fold_ok_diag (d : RefData) (ga gc : ℝ) (numbers : List ℕ)
    (gw : ℕ → ℕ → ℝ) (i : ℕ) (v : ℝ)
    (hv : dc6Pair d ga gc numbers gw i i = .ok v) :
    ∀ (L : List (ℕ × ℕ)) (m : ℕ → ℕ → ℝ), ((i, i) ∈ L ∨ m i i = v) →
    ∀ res, c6Fold d ga gc numbers gw L m = .ok res → res i i = v := by
  intro L
  induction L with
  | nil =>
    intro m hm res h
    simp only [c6Fold] at h
    obtain rfl : m = res := by injection h
    rcases hm with h' | h'
    · cases h'
    · exact h'
  | cons p L ih =>
    intro m hm res h
    cases hd : dc6Pair d ga gc numbers gw p.1 p.2 with
    | error e =>
      simp only [c6Fold, hd] at h
      exact Except.noConfusion h
    | ok w =>
      simp only [c6Fold, hd] at h
      rcases hm with hmem | hval
      · rcases List.mem_cons.mp hmem with heq | hmem'
        · have hp1 : p.1 = i := by rw [← heq]
          have hp2 : p.2 = i := by rw [← heq]
          have hwv : w = v := by
            rw [hp1, hp2] at hd
            exact Except.ok.inj (hd.symm.trans hv)
          refine ih (c6Update w p.1 p.2 m) (Or.inr ?_) res h
          rw [c6Update, if_pos (Or.inl ⟨hp1.symm, hp2.symm⟩)]
          exact hwv
        · exact ih _ (Or.inl hmem') res h
      · refine ih (c6Update w p.1 p.2 m) (Or.inr ?_) res h
        by_cases hp : p.1 = i ∧ p.2 = i
        · have hwv : w = v := by
            rw [hp.1, hp.2] at hd
            exact Except.ok.inj (hd.symm.trans hv)
          rw [c6Update, if_pos (Or.inl ⟨hp.1.symm, hp.2.symm⟩)]
          exact hwv
        · rw [c6Update, if_neg (by omega)]
          exact hval

/-! C2: the per-pair quadrature is never computed from 23-sample slices. -/

/-- C5 counterexample: for the input numbers = [0] -- an atomic number
with refn[0] = 0, i.e. zero valid reference states -- get_atomic_c6
returns normally (its reference loops are empty) and the atom's C6
coefficient is silently 0; no missing-reference-data error occurs. -/
theorem c5_counterexample_silent_zero :
    ∃ m, get_atomic_c6 dsOnes 3 2 [0] (fun _ _ => 0) = .ok m ∧ m 0 0 = 0 :=
  ⟨_, rfl, rfl⟩

/-- C5 amended: for an atom whose element has refn[Z] = 0, get_atomic_c6
does not fail fast; for every reference table and weight tensor it
returns a matrix whose entry for that atom is exactly 0. -/
theorem c5_amended_untabulated_zero (d : RefData) (ga gc : ℝ)
    (gw : ℕ → ℕ → ℝ) :
    ∃ m, get_atomic_c6 d ga gc [0] gw = .ok m ∧ m 0 0 = 0 :=
  ⟨_, rfl, rfl⟩

/-! C7: symmetry and diagonal of the assembled C6 matrix. -/

/-- C7 counterexample: on the input numbers = [2] (one tabulated helium
atom, refn[2] = 1) get_atomic_c6 raises from the 0-dim indexing defect
instead of returning any matrix, so the claim's universally quantified
symmetric-matrix property fails as stated. -/
theorem c7_counterexample_raises :
    ¬ ∃ m, get_atomic_c6 dsOnes 3 2 [2] (fun _ _ => 0) = .ok m := by
  rintro ⟨m, hm⟩
  rw [show get_atomic_c6 dsOnes 3 2 [2] (fun _ _ => 0) =
      .error "invalid index of a 0-dim tensor" from rfl] at hm
  cases hm

/-- C7 amended: whenever get_atomic_c6 does return a matrix, that matrix
is exactly symmetric (every iteration assigns c6[iat, jat] and
c6[jat, iat] the same dc6), and each diagonal entry equals the value of
the same reference-mixing accumulation dc6Pair at (i, i) -- it is not
zeroed out. -/
theorem c7_amended_symmetry (d : RefData) (ga gc : ℝ) (numbers : List ℕ)
    (gw : ℕ → ℕ → ℝ) (m : ℕ → ℕ → ℝ)
    (h : get_atomic_c6 d ga gc numbers gw = .ok m) :
    (∀ i j, m i j = m j i) ∧
    ∀ i, i < numbers.length → dc6Pair d ga gc numbers gw i i = .ok (m i i) := by
  rw [get_atomic_c6] at h
  constructor
  · exact c6Fold_ok_symm d ga gc numbers gw _ (fun _ _ => 0) (fun _ _ => rfl) m h
  · intro i hi
    have hmem : (i, i) ∈
        (List.range numbers.length).product (List.range numbers.length) := by
      rw [List.pair_mem_product]
      exact ⟨List.mem_range.mpr hi, List.mem_range.mpr hi⟩
    obtain ⟨v, hv⟩ := c6Fold_ok_mem d ga gc numbers gw (i, i) _ _ m h hmem
    have hd := c6Fold_ok_diag d ga gc numbers gw i v hv _ _ (Or.inl hmem) m h
    rw [hd, hv]

/-- Witness for C7's amended statement: a two-atom input on which
get_atomic_c6 returns, with a symmetric off-diagonal pair. -/
theorem c7_amended_symmetry_witness :
    ∃ m, get_atomic_c6 dsOnes 3 2 [0, 0] (fun _ _ => 0) = .ok m ∧
      m 0 1 = m 1 0 := by
  refine ⟨_, rfl, ?_⟩
  exact (c7_amended_symmetry dsOnes 3 2 [0, 0] (fun _ _ => 0) _ rfl).1 0 1

end TadDFTD4
